import Mathlib

/-
  Verification development for the touka HTTP router (tree.go, engine.go).

  The routing core is modelled as a shallow embedding:
  * Go strings are byte sequences; they are modelled as lists of natural
    numbers below 256 (type Str).  Paths, indices, parameter keys and values
    are all Str.
  * Go nodes are heap objects reached through pointers.  They are modelled by
    a heap (a list of node records) addressed by position; a child list is a
    list of addresses.  In-place mutation in Go becomes an update of the heap
    at an address, which keeps the pointer behaviour of the source (a node
    keeps its address when its fields are rewritten, exactly as in Go).
  * Handler chains are modelled as lists of opaque handler identifiers
    (natural numbers); a nil Go chain is none, a non-nil chain is some.
  * Go panics become Except.error with a message derived from the panic text.
  * Loops and recursion are driven by an explicit fuel parameter; the
    wrappers pass fuel that is large enough for every execution appearing in
    the theorems (running out of fuel yields the distinguished error
    "insufficient fuel", which never occurs in any theorem below).
-/

/-- A Go byte (a natural number below 256). -/
abbrev Byte := Nat

/-- A Go string viewed as its byte sequence. -/
abbrev Str := List Byte

/-- UTF-8 encoding of one code point, as in Go (invalid code points encode
the replacement character U+FFFD, as utf8.EncodeRune does). -/
def utf8Enc (r : Nat) : List Byte :=
  if r < 0x80 then [r]
  else if r < 0x800 then [0xC0 + r / 64, 0x80 + r % 64]
  else if 0xD800 ≤ r ∧ r < 0xE000 then [0xEF, 0xBF, 0xBD]
  else if r < 0x10000 then [0xE0 + r / 4096, 0x80 + (r / 64) % 64, 0x80 + r % 64]
  else if r < 0x110000 then
    [0xF0 + r / 262144, 0x80 + (r / 4096) % 64, 0x80 + (r / 64) % 64, 0x80 + r % 64]
  else [0xEF, 0xBF, 0xBD]

/-- The UTF-8 bytes of a Lean string literal; used to write the byte strings
appearing in routes and request paths. -/
def bytes (s : String) : Str :=
  (s.data.map (fun c => utf8Enc c.toNat)).flatten

/-- Byte value of a forward slash. -/
def slashByte : Byte := 47

/-- Byte value of a colon (parameter marker). -/
def colonByte : Byte := 58

/-- Byte value of a star (catch-all marker). -/
def starByte : Byte := 42

/-- Byte value of a backslash (escape character in findWildcard). -/
def backslashByte : Byte := 92

/-- A handler chain: the Go type HandlersChain, with each handler function
represented by an opaque identifier. -/
abbrev HandlersChain := List Nat

/-- One URL parameter (Go type Param with fields Key and Value). -/
structure Param where
  key : Str
  value : Str
deriving DecidableEq, Repr

/-- Params is a slice of Param (tree.go). -/
abbrev Params := List Param

/-- Node kinds (tree.go nodeType: static, root, param, catchAll). -/
inductive nodeType where
  | static
  | root
  | param
  | catchAll
deriving DecidableEq, Repr

/-- A routing-tree node (tree.go struct node).  The children field holds
heap addresses instead of Go pointers. -/
structure node where
  path : Str
  indices : Str
  wildChild : Bool
  nType : nodeType
  priority : Nat
  children : List Nat
  handlers : Option HandlersChain
  fullPath : Str
deriving DecidableEq, Repr

/-- The zero value of the node struct in Go. -/
def node.zero : node :=
  { path := [], indices := [], wildChild := false, nType := nodeType.static,
    priority := 0, children := [], handlers := none, fullPath := [] }

/-- The node heap: Go pointers become list positions. -/
abbrev Heap := List node

/-- Dereference a node address (Go pointer dereference; all addresses used
by the algorithms are valid, the default is never produced by a run that
matters to a theorem). -/
def hget (h : Heap) (a : Nat) : node := (h.get? a).getD node.zero

/-- Store a node at an address (Go in-place field assignment). -/
def hset (h : Heap) (a : Nat) (v : node) : Heap := h.set a v

/-- Allocate a fresh node (Go new-node literal taken by address). -/
def halloc (h : Heap) (v : node) : Heap × Nat := (h ++ [v], h.length)

/-- tree.go longestCommonPrefix: length of the longest common prefix of two
byte strings.  (Renamed from the source's longestCommonPrefix only because
of naming constraints of this development.) -/
def longestCommonPref : Str → Str → Nat
  | a :: as, b :: bs => if a = b then longestCommonPref as bs + 1 else 0
  | _, _ => 0

/-- tree.go countParams: the number of colon and star bytes in a path. -/
def countParams (path : Str) : Nat :=
  (path.filter (fun c => c = colonByte)).length +
    (path.filter (fun c => c = starByte)).length

/-- tree.go countSections: the number of slash bytes in a path. -/
def countSections (path : Str) : Nat :=
  (path.filter (fun c => c = slashByte)).length

/-- tree.go (*node).addChild on the heap: appends a child address, keeping
the wildcard child (if any) at the end of the children array. -/
def addChildH (n : node) (ca : Nat) : node :=
  if n.wildChild ∧ n.children.length > 0 then
    { n with children := n.children.dropLast ++ [ca, n.children.getLastD 0] }
  else
    { n with children := n.children ++ [ca] }

/-- First position of a byte in an index string (the Go loop
"for i, c := range n.indices, if c == idxc"). -/
def findIdx : Str → Byte → Option Nat
  | [], _ => none
  | c :: rest, x => if c = x then some 0 else (findIdx rest x).map (· + 1)

/-- The backward bubble loop of incrementChildPrio: starting from pos, move
left while the preceding child has strictly smaller priority.  The heap is
needed to read child priorities through their addresses. -/
def bubbleBack (h : Heap) (cs : List Nat) (pz : Nat) : Nat → Nat
  | 0 => 0
  | Nat.succ p =>
      if (hget h (cs.getD p 0)).priority < pz then bubbleBack h cs pz p
      else Nat.succ p

/-- Move the element at position pos of a list in front of position newPos,
shifting the skipped elements right (the net effect of the adjacent swaps
in incrementChildPrio, and of the index-string rebuild). -/
def moveFront (l : List α) (d : α) (newPos pos : Nat) : List α :=
  l.take newPos ++ [l.getD pos d] ++ (l.drop newPos).take (pos - newPos) ++ l.drop (pos + 1)

/-- tree.go (*node).incrementChildPrio at heap address a: bump the priority
of the child at position pos, bubble it forward past lower-priority
siblings, rebuild the index string, and return the new position. -/
def incrementChildPrio (h : Heap) (a : Nat) (pos : Nat) : Heap × Nat :=
  let n := hget h a
  let ca := n.children.getD pos 0
  let c := hget h ca
  let h₁ := hset h ca { c with priority := c.priority + 1 }
  let pz := c.priority + 1
  let newPos := bubbleBack h₁ n.children pz pos
  if newPos ≠ pos then
    let cs := moveFront n.children 0 newPos pos
    let ix := moveFront n.indices 0 newPos pos
    (hset h₁ a { n with children := cs, indices := ix }, newPos)
  else
    (h₁, newPos)

/-- Inner scan of findWildcard: walk the bytes after a wildcard marker until
a slash or the end; the flag turns false if another colon or star occurs in
the same segment.  Returns the number of bytes before the slash (or all of
them) together with the final validity flag. -/
def fwEnd : Str → Bool → Nat × Bool
  | [], valid => (0, valid)
  | c :: rest, valid =>
      if c = slashByte then (0, valid)
      else
        let v := if c = colonByte ∨ c = starByte then false else valid
        let r := fwEnd rest v
        (r.1 + 1, r.2)

/-- Outer scan of findWildcard, carrying the byte position and the
escape-colon state; a backslash escapes a following literal colon, any other
escaped byte is the panic "invalid escape string". -/
def fwAux : Str → Nat → Bool → Except String (Option (Str × Nat × Bool))
  | [], _, _ => Except.ok none
  | c :: rest, start, esc =>
      if esc then
        if c = colonByte then fwAux rest (start + 1) false
        else Except.error "invalid escape string in path"
      else if c = backslashByte then fwAux rest (start + 1) true
      else if c ≠ colonByte ∧ c ≠ starByte then fwAux rest (start + 1) false
      else
        let r := fwEnd rest true
        Except.ok (some (c :: rest.take r.1, start, r.2))

/-- tree.go findWildcard: locate the first unescaped wildcard segment.  The
Go function returns index -1 when there is none; that is modelled by none.
The invalid-escape panic is an error. -/
def findWildcard (path : Str) : Except String (Option (Str × Nat × Bool)) :=
  fwAux path 0 false

/-- tree.go (*node).insertChild at heap address a: insert the (remaining)
path with its handlers below the current node, creating param and catch-all
nodes for wildcard segments.  Panics of the source are errors.  The fuel
bounds the source's for-loop (one recursive call per additional wildcard
segment, each of which strictly shortens the path). -/
def insertChildF : Nat → Heap → Nat → Str → Str → HandlersChain → Except String Heap
  | 0, _, _, _, _, _ => Except.error "insufficient fuel"
  | Nat.succ fuel, h, a, path, fullPath, handlers =>
    match findWildcard path with
    | Except.error e => Except.error e
    | Except.ok none =>
        -- no wildcard: store path, handlers and full path on this node
        let n := hget h a
        Except.ok (hset h a { n with path := path, handlers := some handlers, fullPath := fullPath })
    | Except.ok (some (wildcard, i, valid)) =>
        if ¬ valid then
          Except.error "only one wildcard per path segment is allowed"
        else if wildcard.length < 2 then
          Except.error "wildcards must be named with a non-empty name"
        else if wildcard.headD 0 = colonByte then
          -- param segment
          let n := hget h a
          let h := if i > 0 then hset h a { n with path := path.take i } else h
          let path₁ := path.drop i
          -- the new param child; the source creates it with priority zero and
          -- bumps it right after descending (n = child; n.priority++)
          let child : node :=
            { node.zero with nType := nodeType.param, path := wildcard, fullPath := fullPath, priority := 1 }
          let al := halloc h child
          let h := al.1
          let ca := al.2
          let par := hget h a
          let h := hset h a { (addChildH par ca) with wildChild := true }
          if wildcard.length < path₁.length then
            -- the path continues after the parameter: descend into a fresh
            -- child holding the continuation and loop
            let rest := path₁.drop wildcard.length
            let al₂ := halloc h { node.zero with priority := 1, fullPath := fullPath }
            let h := al₂.1
            let ga := al₂.2
            let pc := hget h ca
            let h := hset h ca (addChildH pc ga)
            insertChildF fuel h ga rest fullPath handlers
          else
            -- the wildcard is the last segment: attach the handlers to it
            let pc := hget h ca
            Except.ok (hset h ca { pc with handlers := some handlers })
        else
          -- catch-all segment
          if i + wildcard.length ≠ path.length then
            Except.error "catch-all routes are only allowed at the end of the path"
          else
            let n := hget h a
            if n.path.length > 0 ∧ n.path.getLastD 0 = slashByte then
              Except.error "catch-all wildcard conflicts with existing path segment"
            else if i = 0 ∨ path.getD (i - 1) 0 ≠ slashByte then
              Except.error "no / before catch-all"
            else
              let i₁ := i - 1
              -- first node: empty-path catchAll holder (wildChild set), with
              -- the parent's index string overwritten to "/"; the source bumps
              -- the holder's priority after descending into it
              let holder : node :=
                { node.zero with wildChild := true, nType := nodeType.catchAll, fullPath := fullPath, priority := 1 }
              let al := halloc h holder
              let h := al.1
              let ha := al.2
              let h := hset h a { (addChildH { n with path := path.take i₁ } ha) with indices := [slashByte] }
              -- second node: the catch-all leaf carrying the handlers
              let leaf : node :=
                { node.zero with path := path.drop i₁, nType := nodeType.catchAll, handlers := some handlers, priority := 1, fullPath := fullPath }
              let al₂ := halloc h leaf
              let h := al₂.1
              let la := al₂.2
              let hv := hget h ha
              Except.ok (hset h ha { hv with children := [la] })

/-- tree.go (*node).addRoute, the walk loop, at heap address a.  One fuel
unit per loop iteration.  parentIdx is the source's parentFullPathIndex.
Panics (wildcard conflict, duplicate registration) are errors; on an error
the partially mutated heap is discarded, which is unobservable because a Go
panic aborts registration. -/
def addRouteF : Nat → Heap → Nat → Str → Str → Nat → HandlersChain → Except String Heap
  | 0, _, _, _, _, _, _ => Except.error "insufficient fuel"
  | Nat.succ fuel, h, a, path, fullPath, parentIdx, handlers =>
    let n := hget h a
    let i := longestCommonPref path n.path
    -- split edge: the node keeps the common prefix, a fresh child carries the
    -- remainder together with the old children, indices and handlers
    let sp :=
      if i < n.path.length then
        let child : node :=
          { path := n.path.drop i, wildChild := n.wildChild, nType := nodeType.static,
            indices := n.indices, children := n.children, handlers := n.handlers,
            priority := n.priority - 1, fullPath := n.fullPath }
        let al := halloc h child
        let h₁ := al.1
        let ca := al.2
        let n₁ : node :=
          { n with children := [ca], indices := [n.path.getD i 0], path := n.path.take i, handlers := none, wildChild := false, fullPath := fullPath.take (parentIdx + i) }
        (hset h₁ a n₁, n₁)
      else (h, n)
    let h := sp.1
    let n := sp.2
    if i < path.length then
      let path₁ := path.drop i
      let c := path₁.headD 0
      -- slash after param: descend into the only child
      if n.nType = nodeType.param ∧ c = slashByte ∧ n.children.length = 1 then
        let ca := n.children.getD 0 0
        let ch := hget h ca
        let h := hset h ca { ch with priority := ch.priority + 1 }
        addRouteF fuel h ca path₁ fullPath (parentIdx + n.path.length) handlers
      else
        match findIdx n.indices c with
        | some j =>
            -- a static child starts with the next byte: descend into it
            let r := incrementChildPrio h a j
            let h := r.1
            let j₁ := r.2
            addRouteF fuel h ((hget h a).children.getD j₁ 0) path₁ fullPath
              (parentIdx + n.path.length) handlers
        | none =>
            if c ≠ colonByte ∧ c ≠ starByte ∧ n.nType ≠ nodeType.catchAll then
              -- insert a fresh static child and continue inside it
              let al := halloc h { node.zero with fullPath := fullPath }
              let h := al.1
              let ca := al.2
              let h := hset h a (addChildH { n with indices := n.indices ++ [c] } ca)
              let r := incrementChildPrio h a ((hget h a).indices.length - 1)
              let h := r.1
              insertChildF (path₁.length + 1) h ca path₁ fullPath handlers
            else if n.wildChild then
              -- inserting a wildcard where one already exists: check that it
              -- is the same wildcard, otherwise panic with a conflict
              let ca := n.children.getD (n.children.length - 1) 0
              let ch := hget h ca
              let h := hset h ca { ch with priority := ch.priority + 1 }
              if path₁.length ≥ ch.path.length ∧ path₁.take ch.path.length = ch.path ∧
                  ch.nType ≠ nodeType.catchAll ∧
                  (ch.path.length ≥ path₁.length ∨ path₁.getD ch.path.length 0 = slashByte) then
                addRouteF fuel h ca path₁ fullPath parentIdx handlers
              else
                Except.error "path segment conflicts with existing wildcard"
            else
              insertChildF (path₁.length + 1) h a path₁ fullPath handlers
    else
      -- the path ends here: attach the handlers to this node
      if n.handlers ≠ none then Except.error "handlers are already registered for path"
      else Except.ok (hset h a { n with handlers := some handlers, fullPath := fullPath })

/-- tree.go (*node).addRoute entry at heap address a: bump the priority and
either fill an empty tree through insertChild (marking the node as root) or
run the walk loop. -/
def addRoute (h : Heap) (a : Nat) (path : Str) (handlers : HandlersChain) : Except String Heap :=
  let fullPath := path
  let n := hget h a
  let h := hset h a { n with priority := n.priority + 1 }
  if n.path.length = 0 ∧ n.children.length = 0 then
    match insertChildF (path.length + 1) h a path fullPath handlers with
    | Except.error e => Except.error e
    | Except.ok h₁ =>
        let m := hget h₁ a
        Except.ok (hset h₁ a { m with nType := nodeType.root })
  else
    addRouteF (2 * path.length + h.length + 8) h a path fullPath 0 handlers

/-- engine.go registerMethodTree: a fresh method tree consists of one root
node with nType root and fullPath "/"; it lives at heap address 0, which
never changes (the Go root pointer is stable across registrations). -/
def newRootHeap : Heap :=
  [ { node.zero with nType := nodeType.root, fullPath := bytes "/" } ]

/-- engine.go (*Engine).addRoute for one method tree: validate that the path
and the handler chain are non-empty, then delegate to the root node's
addRoute (the maxParams and routesInfo bookkeeping in the source does not
touch the routing tree). -/
def engineAddRoute (h : Heap) (path : Str) (handlers : HandlersChain) : Except String Heap :=
  if path.length = 0 then Except.error "absolute path must not be empty"
  else if handlers.length = 0 then Except.error "handlers must not be empty"
  else addRoute h 0 path handlers

/-- Register a list of routes on one method tree, starting from the fresh
root; any registration panic aborts with that error. -/
def mkTree (routes : List (String × HandlersChain)) : Except String Heap :=
  routes.foldlM (fun h r => addRoute h 0 (bytes r.1) r.2) newRootHeap


/-- Model of net/url.QueryUnescape restricted to its observable behaviour on
byte strings: a percent sign must be followed by two hex digits (otherwise
the escape error), a plus becomes a space, every other byte is copied. -/
def isHexByte (c : Byte) : Bool :=
  (48 ≤ c ∧ c ≤ 57) ∨ (97 ≤ c ∧ c ≤ 102) ∨ (65 ≤ c ∧ c ≤ 70)

/-- Numeric value of a hex digit byte. -/
def unhexByte (c : Byte) : Nat :=
  if 48 ≤ c ∧ c ≤ 57 then c - 48
  else if 97 ≤ c ∧ c ≤ 102 then c - 97 + 10
  else if 65 ≤ c ∧ c ≤ 70 then c - 65 + 10
  else 0

/-- net/url.QueryUnescape (the mode used by getValue); an invalid percent
escape yields an error, mirroring url.EscapeError. -/
def queryUnescape : Str → Except Unit Str
  | [] => Except.ok []
  | 37 :: a :: b :: rest =>
      if isHexByte a ∧ isHexByte b then
        (queryUnescape rest).map (fun r => (unhexByte a * 16 + unhexByte b) :: r)
      else Except.error ()
  | 37 :: _ => Except.error ()
  | 43 :: rest => (queryUnescape rest).map (fun r => 32 :: r)
  | c :: rest => (queryUnescape rest).map (fun r => c :: r)

/-- The parameter-value scan of getValue: the number of bytes before the
next slash, or the whole remaining path (the Go loop
"for end < len(path) and path[end] != '/', end++"). -/
def seekSlash : Str → Nat
  | [] => 0
  | c :: rest => if c = slashByte then 0 else seekSlash rest + 1

/-- tree.go struct skippedNode: a backtracking frame recorded during
getValue.  The nd field holds the copy of the branch node that the source
stores through a fresh pointer (tree.go lines 484-492). -/
structure skippedNode where
  path : Str
  nd : node
  paramsCount : Nat
deriving DecidableEq, Repr

/-- The backtracking pop loop shared by the three restore sites of getValue:
pop frames from the top of the stack until one whose recorded path has the
current path as a suffix; frames popped on the way stay popped.  The stack
is kept top-first (the Go slice keeps the top at the end). -/
def popSearch : List skippedNode → Str → Option (skippedNode × List skippedNode)
  | [], _ => none
  | f :: rest, path =>
      if path.isSuffixOf f.path then some (f, rest) else popSearch rest path

/-- The observable outcome of getValue: the nodeValue fields (handlers, tsr,
fullPath), whether value.params was set to the caller's params pointer, the
final contents of the caller's params slice (none when the caller passed a
nil pointer), and the final contents of the caller's skippedNodes slice. -/
structure getOut where
  handlers : Option HandlersChain
  params : Option Params
  paramsSet : Bool
  tsr : Bool
  fullPath : Str
  skipped : List skippedNode
deriving DecidableEq, Repr

/-- Percent-decode a captured value when unescape is set; a decode error is
swallowed and the raw value kept (tree.go lines 556-560 and 608-612). -/
def unescapeVal (unescape : Bool) (val : Str) : Str :=
  if unescape then
    match queryUnescape val with
    | Except.ok v => v
    | Except.error _ => val
  else val

/-- tree.go (*node).getValue, the walk loop.  The state mirrors the source:
the current node value n (descending reads a child from the heap; a restored
frame installs the frame's copied node), the remaining path, the caller's
params slice (an Option, none for a nil pointer), the skippedNodes slice
with its capacity skCap (the source extends the slice with a full slice
expression, which panics at runtime when the capacity is exhausted — every
call site in engine.go passes a nil slice of capacity zero), the unescape
flag, the globalParamsCount counter gpc, and whether value.params has been
set (vpSet).  The pair returned carries the heap unchanged, making the
read-only behaviour of the source lookup part of the statement. -/
def getValueF : Nat → Heap → node → Str → Option Params → List skippedNode → Nat → Bool → Nat → Bool → (Except String getOut) × Heap
  | 0, h, _, _, _, _, _, _, _, _ => (Except.error "insufficient fuel", h)
  | Nat.succ fuel, h, n, path, params, skipped, skCap, unescape, gpc, vpSet =>
    let pref := n.path
    if path.length > pref.length ∧ path.take pref.length = pref then
      let path₁ := path.drop pref.length
      -- try all the non-wildcard children first, by matching the index byte
      let idxc := path₁.headD 0
      match findIdx n.indices idxc with
      | some i =>
          if n.wildChild then
            -- the node also has a wildcard child: record a backtracking
            -- frame (a copy of the node, the unconsumed path, the parameter
            -- count) before descending into the static child.  The source
            -- grows the slice with (*skippedNodes)[:index+1], which panics
            -- when the capacity is exhausted.
            if skipped.length + 1 > skCap then
              (Except.error "runtime error: slice bounds out of range", h)
            else
              let frame : skippedNode := { path := pref ++ path₁, nd := n, paramsCount := gpc }
              getValueF fuel h (hget h (n.children.getD i 0)) path₁ params (frame :: skipped) skCap unescape gpc vpSet
          else
            getValueF fuel h (hget h (n.children.getD i 0)) path₁ params skipped skCap unescape gpc vpSet
      | none =>
        if ¬ n.wildChild then
          -- dead end without a wildcard child: backtrack to the last frame
          -- whose recorded path ends with the current path
          match (if path₁ ≠ [slashByte] then popSearch skipped path₁ else none) with
          | some fr =>
              let params₁ := if vpSet then params.map (fun ps => ps.take fr.1.paramsCount) else params
              getValueF fuel h fr.1.nd fr.1.path params₁ fr.2 skCap unescape fr.1.paramsCount vpSet
          | none =>
              let skipped₁ := if path₁ ≠ [slashByte] then [] else skipped
              (Except.ok { handlers := none, params := params, paramsSet := vpSet, tsr := path₁ = [slashByte] ∧ n.handlers ≠ none, fullPath := [], skipped := skipped₁ }, h)
        else
          -- handle the wildcard child, which is always at the end of the array
          let n₁ := hget h (n.children.getD (n.children.length - 1) 0)
          let gpc₁ := gpc + 1
          match n₁.nType with
          | nodeType.param =>
              let e := seekSlash path₁
              let st :=
                match params with
                | some ps =>
                    (some (ps ++ [Param.mk (n₁.path.drop 1) (unescapeVal unescape (path₁.take e))]), true)
                | none => (none, vpSet)
              let params₁ := st.1
              let vpSet₁ := st.2
              if e < path₁.length then
                if n₁.children.length > 0 then
                  getValueF fuel h (hget h (n₁.children.getD 0 0)) (path₁.drop e) params₁ skipped skCap unescape gpc₁ vpSet₁
                else
                  (Except.ok { handlers := none, params := params₁, paramsSet := vpSet₁, tsr := path₁.length = e + 1, fullPath := [], skipped := skipped }, h)
              else if n₁.handlers ≠ none then
                (Except.ok { handlers := n₁.handlers, params := params₁, paramsSet := vpSet₁, tsr := false, fullPath := n₁.fullPath, skipped := skipped }, h)
              else if n₁.children.length = 1 then
                let n₂ := hget h (n₁.children.getD 0 0)
                (Except.ok { handlers := none, params := params₁, paramsSet := vpSet₁, tsr := (n₂.path = [slashByte] ∧ n₂.handlers ≠ none) ∨ (n₂.path = [] ∧ n₂.indices = [slashByte]), fullPath := [], skipped := skipped }, h)
              else
                (Except.ok { handlers := none, params := params₁, paramsSet := vpSet₁, tsr := false, fullPath := [], skipped := skipped }, h)
          | nodeType.catchAll =>
              let st :=
                match params with
                | some ps =>
                    (some (ps ++ [Param.mk (n₁.path.drop 2) (unescapeVal unescape path₁)]), true)
                | none => (none, vpSet)
              (Except.ok { handlers := n₁.handlers, params := st.1, paramsSet := st.2, tsr := false, fullPath := n₁.fullPath, skipped := skipped }, h)
          | _ => (Except.error "invalid node type", h)
    else if path = pref then
      -- the whole path was consumed at this node
      match (if n.handlers = none ∧ path ≠ [slashByte] then popSearch skipped path else none) with
      | some fr =>
          let params₁ := if vpSet then params.map (fun ps => ps.take fr.1.paramsCount) else params
          getValueF fuel h fr.1.nd fr.1.path params₁ fr.2 skCap unescape fr.1.paramsCount vpSet
      | none =>
        let skipped₁ := if n.handlers = none ∧ path ≠ [slashByte] then [] else skipped
        if n.handlers ≠ none then
          (Except.ok { handlers := n.handlers, params := params, paramsSet := vpSet, tsr := false, fullPath := n.fullPath, skipped := skipped₁ }, h)
        else if path = [slashByte] ∧ n.wildChild ∧ n.nType ≠ nodeType.root then
          (Except.ok { handlers := none, params := params, paramsSet := vpSet, tsr := true, fullPath := [], skipped := skipped₁ }, h)
        else if path = [slashByte] ∧ n.nType = nodeType.static then
          (Except.ok { handlers := none, params := params, paramsSet := vpSet, tsr := true, fullPath := [], skipped := skipped₁ }, h)
        else
          match findIdx n.indices slashByte with
          | some i =>
              let n₁ := hget h (n.children.getD i 0)
              (Except.ok { handlers := none, params := params, paramsSet := vpSet, tsr := (n₁.path.length = 1 ∧ n₁.handlers ≠ none) ∨ (n₁.nType = nodeType.catchAll ∧ (hget h (n₁.children.getD 0 0)).handlers ≠ none), fullPath := [], skipped := skipped₁ }, h)
          | none =>
              (Except.ok { handlers := none, params := params, paramsSet := vpSet, tsr := false, fullPath := [], skipped := skipped₁ }, h)
    else
      -- nothing matched at this node: maybe recommend a trailing-slash
      -- redirect, otherwise backtrack
      let tsr := path = [slashByte] ∨ (pref.length = path.length + 1 ∧ pref.getD path.length 0 = slashByte ∧ path = pref.take (pref.length - 1) ∧ n.handlers ≠ none)
      match (if ¬ tsr ∧ path ≠ [slashByte] then popSearch skipped path else none) with
      | some fr =>
          let params₁ := if vpSet then params.map (fun ps => ps.take fr.1.paramsCount) else params
          getValueF fuel h fr.1.nd fr.1.path params₁ fr.2 skCap unescape fr.1.paramsCount vpSet
      | none =>
          let skipped₁ := if ¬ tsr ∧ path ≠ [slashByte] then [] else skipped
          (Except.ok { handlers := none, params := params, paramsSet := vpSet, tsr := tsr, fullPath := [], skipped := skipped₁ }, h)

/-- tree.go (*node).getValue on the tree rooted at heap address a, with the
caller-supplied params slice and skippedNodes slice (stack plus capacity).
engine.go always passes a nil skippedNodes slice, that is capacity zero. -/
def getValue (h : Heap) (a : Nat) (path : Str) (params : Option Params) (skipped : List skippedNode) (skCap : Nat) (unescape : Bool) : (Except String getOut) × Heap :=
  getValueF (4 * path.length + 4 * h.length + 8) h (hget h a) path params skipped skCap unescape 0 false

/-- A four-byte buffer (the Go [4]byte rune buffer of the case-insensitive
lookup). -/
structure rune4 where
  b0 : Byte
  b1 : Byte
  b2 : Byte
  b3 : Byte
deriving DecidableEq, Repr

/-- tree.go shiftNRuneBytes: shift the bytes of the buffer left by n. -/
def shiftNRuneBytes (rb : rune4) : Nat → rune4
  | 0 => rb
  | 1 => { b0 := rb.b1, b1 := rb.b2, b2 := rb.b3, b3 := 0 }
  | 2 => { b0 := rb.b2, b1 := rb.b3, b2 := 0, b3 := 0 }
  | 3 => { b0 := rb.b3, b1 := 0, b2 := 0, b3 := 0 }
  | _ => { b0 := 0, b1 := 0, b2 := 0, b3 := 0 }

/-- Model of utf8.RuneStart: a byte that is not a continuation byte. -/
def runeStart (b : Byte) : Bool := ¬ (0x80 ≤ b ∧ b < 0xC0)

/-- Model of utf8.DecodeRuneInString: the first code point of a byte string
and the number of bytes it occupies.  Exact on ASCII and on well-formed
multi-byte sequences; the stricter overlong and surrogate rejection of the
Go library is elided (no input in this development reaches it). -/
def decodeRuneSize : Str → Nat × Nat
  | [] => (0xFFFD, 0)
  | b :: rest =>
      if b < 0x80 then (b, 1)
      else if b < 0xC2 then (0xFFFD, 1)
      else if b < 0xE0 then
        match rest with
        | c :: _ => if 0x80 ≤ c ∧ c < 0xC0 then ((b - 0xC0) * 64 + (c - 0x80), 2) else (0xFFFD, 1)
        | _ => (0xFFFD, 1)
      else if b < 0xF0 then
        match rest with
        | c :: d :: _ =>
            if (0x80 ≤ c ∧ c < 0xC0) ∧ (0x80 ≤ d ∧ d < 0xC0) then
              ((b - 0xE0) * 4096 + (c - 0x80) * 64 + (d - 0x80), 3)
            else (0xFFFD, 1)
        | _ => (0xFFFD, 1)
      else if b < 0xF5 then
        match rest with
        | c :: d :: e :: _ =>
            if (0x80 ≤ c ∧ c < 0xC0) ∧ (0x80 ≤ d ∧ d < 0xC0) ∧ (0x80 ≤ e ∧ e < 0xC0) then
              ((b - 0xF0) * 262144 + (c - 0x80) * 4096 + (d - 0x80) * 64 + (e - 0x80), 4)
            else (0xFFFD, 1)
        | _ => (0xFFFD, 1)
      else (0xFFFD, 1)

/-- The first code point only (the size is discarded at the use site in the
source as well). -/
def decodeRune (s : Str) : Nat := (decodeRuneSize s).1

/-- Model of unicode.ToLower: exact on the ASCII range, identity elsewhere
(every input in this development is ASCII). -/
def toLowerRune (r : Nat) : Nat := if 65 ≤ r ∧ r ≤ 90 then r + 32 else r

/-- Model of unicode.ToUpper: exact on the ASCII range, identity elsewhere. -/
def toUpperRune (r : Nat) : Nat := if 97 ≤ r ∧ r ≤ 122 then r - 32 else r

/-- Decode a byte string into its code points (driven by the byte length,
each step consumes at least one byte). -/
def decodeRunesF : Nat → Str → List Nat
  | 0, _ => []
  | _, [] => []
  | Nat.succ k, b :: rest =>
      let r := decodeRuneSize (b :: rest)
      r.1 :: decodeRunesF k ((b :: rest).drop (max r.2 1))

/-- All code points of a byte string. -/
def decodeRunes (s : Str) : List Nat := decodeRunesF s.length s

/-- Model of strings.EqualFold: case-insensitive comparison by code point;
exact on ASCII (simple folding beyond ASCII is approximated by the identity,
which no input of this development exercises). -/
def equalFold (a b : Str) : Bool :=
  (decodeRunes a).map toLowerRune = (decodeRunes b).map toLowerRune

/-- Model of utf8.EncodeRune into the four-byte buffer: the encoded bytes
overwrite the front of the buffer, the remaining bytes keep their old
values (the source encodes into rb[:]). -/
def encodeRuneInto (rb : rune4) (r : Nat) : rune4 :=
  let e := utf8Enc r
  { b0 := e.getD 0 0,
    b1 := if e.length > 1 then e.getD 1 0 else rb.b1,
    b2 := if e.length > 2 then e.getD 2 0 else rb.b2,
    b3 := if e.length > 3 then e.getD 3 0 else rb.b3 }

/-- The rune-start search of findCaseInsensitivePathRec (tree.go lines
804-811): walk off from 0 while off < max, looking backwards from the end
of the just-consumed prefix of oldPath for a rune start; on a hit decode the
rune there, otherwise the rune value stays zero.  The countdown k stands
for max - off. -/
def runeStartSearch (oldPath : Str) (npLen : Nat) : Nat → Nat → Nat × Nat
  | 0, off => (off, 0)
  | Nat.succ k, off =>
      if runeStart (oldPath.getD (npLen - off) 0) then
        (off, decodeRune (oldPath.drop (npLen - off)))
      else runeStartSearch oldPath npLen k (off + 1)

/-- tree.go (*node).findCaseInsensitivePathRec.  The walk label becomes a
tail call, the explicit recursive call of the source stays a recursive
call; one fuel unit per step.  The source's npLen variable always equals
the length of the current node's path at the loop head, so it is not
carried separately.  Returning none models returning a nil byte slice. -/
def ciRec : Nat → Heap → node → Str → Str → rune4 → Bool → Except String (Option Str)
  | 0, _, _, _, _, _, _ => Except.error "insufficient fuel"
  | Nat.succ fuel, h, n, path, ciPath, rb, fixTrailingSlash =>
    let npLen := n.path.length
    if path.length ≥ npLen ∧ (npLen = 0 ∨ equalFold ((path.take npLen).drop 1) (n.path.drop 1)) then
      let oldPath := path
      let path₁ := path.drop npLen
      let ciPath₁ := ciPath ++ n.path
      if path₁.length = 0 then
        -- the whole path was consumed: this node must carry handlers, or the
        -- path is fixable by adding a trailing slash
        if n.handlers ≠ none then Except.ok (some ciPath₁)
        else if fixTrailingSlash then
          match findIdx n.indices slashByte with
          | some i =>
              let n₁ := hget h (n.children.getD i 0)
              if (n₁.path.length = 1 ∧ n₁.handlers ≠ none) ∨
                  (n₁.nType = nodeType.catchAll ∧ (hget h (n₁.children.getD 0 0)).handlers ≠ none) then
                Except.ok (some (ciPath₁ ++ [slashByte]))
              else Except.ok none
          | none => Except.ok none
        else Except.ok none
      else if ¬ n.wildChild then
        let rb₁ := shiftNRuneBytes rb npLen
        if rb₁.b0 ≠ 0 then
          -- an old rune is not finished yet
          match findIdx n.indices rb₁.b0 with
          | some i => ciRec fuel h (hget h (n.children.getD i 0)) path₁ ciPath₁ rb₁ fixTrailingSlash
          | none =>
              if fixTrailingSlash ∧ path₁ = [slashByte] ∧ n.handlers ≠ none then Except.ok (some ciPath₁)
              else Except.ok none
        else
          -- process a new rune: locate its start inside the just consumed
          -- prefix, then try the lowercase variant by a recursive call and
          -- fall back to the uppercase variant by descending
          let rsr := runeStartSearch oldPath npLen (min npLen 3) 0
          let off := rsr.1
          let rv := rsr.2
          let lo := toLowerRune rv
          let rbLo := shiftNRuneBytes (encodeRuneInto rb₁ lo) off
          let loStep :=
            match findIdx n.indices rbLo.b0 with
            | some i => some (ciRec fuel h (hget h (n.children.getD i 0)) path₁ ciPath₁ rbLo fixTrailingSlash)
            | none => none
          match loStep with
          | some (Except.error e) => Except.error e
          | some (Except.ok (some out)) => Except.ok (some out)
          | _ =>
              let up := toUpperRune rv
              if up ≠ lo then
                let rbUp := shiftNRuneBytes (encodeRuneInto rbLo up) off
                match findIdx n.indices rbUp.b0 with
                | some i => ciRec fuel h (hget h (n.children.getD i 0)) path₁ ciPath₁ rbUp fixTrailingSlash
                | none =>
                    if fixTrailingSlash ∧ path₁ = [slashByte] ∧ n.handlers ≠ none then Except.ok (some ciPath₁)
                    else Except.ok none
              else
                if fixTrailingSlash ∧ path₁ = [slashByte] ∧ n.handlers ≠ none then Except.ok (some ciPath₁)
                else Except.ok none
      else
        -- wildcard child (always the only child here)
        let n₁ := hget h (n.children.getD 0 0)
        match n₁.nType with
        | nodeType.param =>
            let e := seekSlash path₁
            let ciPath₂ := ciPath₁ ++ path₁.take e
            if e < path₁.length then
              if n₁.children.length > 0 then
                ciRec fuel h (hget h (n₁.children.getD 0 0)) (path₁.drop e) ciPath₂ rb fixTrailingSlash
              else if fixTrailingSlash ∧ path₁.length = e + 1 then Except.ok (some ciPath₂)
              else Except.ok none
            else if n₁.handlers ≠ none then Except.ok (some ciPath₂)
            else if fixTrailingSlash ∧ n₁.children.length = 1 then
              let n₂ := hget h (n₁.children.getD 0 0)
              if n₂.path = [slashByte] ∧ n₂.handlers ≠ none then Except.ok (some (ciPath₂ ++ [slashByte]))
              else Except.ok none
            else Except.ok none
        | nodeType.catchAll => Except.ok (some (ciPath₁ ++ path₁))
        | _ => Except.error "invalid node type"
    else
      -- nothing matched: maybe fix the path by adding or removing a
      -- trailing slash
      if fixTrailingSlash then
        if path = [slashByte] then Except.ok (some ciPath)
        else if path.length + 1 = npLen ∧ n.path.getD path.length 0 = slashByte ∧
            equalFold (path.drop 1) ((n.path.take path.length).drop 1) ∧ n.handlers ≠ none then
          Except.ok (some (ciPath ++ n.path))
        else Except.ok none
      else Except.ok none

/-- tree.go (*node).findCaseInsensitivePath on the tree rooted at heap
address a: run the recursion with an empty result buffer and an empty rune
buffer; found is whether the returned slice is non-nil (the preallocated
buffer of the source only avoids allocations and has no other effect). -/
def findCaseInsensitivePath (h : Heap) (a : Nat) (path : Str) (fixTrailingSlash : Bool) : Except String (Str × Bool) :=
  match ciRec (4 * path.length + 4 * h.length + 16) h (hget h a) path [] { b0 := 0, b1 := 0, b2 := 0, b3 := 0 } fixTrailingSlash with
  | Except.error e => Except.error e
  | Except.ok (some p) => Except.ok (p, true)
  | Except.ok none => Except.ok ([], false)

/-- True exactly on a registration panic. -/
def isError : Except String Heap → Bool
  | Except.error _ => true
  | Except.ok _ => false

/-- Routes for the C1 round-trip instance: a static route and a parameter
route sharing the branch node. -/
def routesC1 : List (String × HandlersChain) := [ ("/a/b", [1]), ("/a/:x", [2]) ]

/-- The heap holding /a/b and /a/:x (the value mkTree routesC1 computes, as the claim theorem records). -/
def treeC1 : Heap :=
  [ { path := [47,97,47], indices := [98], wildChild := true, nType := nodeType.root, priority := 2, children := [1,2], handlers := none, fullPath := [47,97,47] },
    { path := [98], indices := [], wildChild := false, nType := nodeType.static, priority := 1, children := [], handlers := some [1], fullPath := [47,97,47,98] },
    { path := [58,120], indices := [], wildChild := false, nType := nodeType.param, priority := 1, children := [], handlers := some [2], fullPath := [47,97,47,58,120] } ]

/-- Routes of the spec's static-over-wildcard example. -/
def routesC2 : List (String × HandlersChain) := [ ("/users/:id", [1]), ("/users/new", [2]) ]

/-- The heap holding /users/:id and /users/new (the value mkTree routesC2 computes, as the claim theorem records). -/
def treeC2 : Heap :=
  [ { path := [47,117,115,101,114,115,47], indices := [110], wildChild := true, nType := nodeType.root, priority := 2, children := [2,1], handlers := none, fullPath := [47] },
    { path := [58,105,100], indices := [], wildChild := false, nType := nodeType.param, priority := 1, children := [], handlers := some [1], fullPath := [47,117,115,101,114,115,47,58,105,100] },
    { path := [110,101,119], indices := [], wildChild := false, nType := nodeType.static, priority := 1, children := [], handlers := some [2], fullPath := [47,117,115,101,114,115,47,110,101,119] } ]

/-- The single parameter route of the spec's extraction example. -/
def routesUsers : List (String × HandlersChain) := [ ("/users/:id", [1]) ]

/-- The heap holding only /users/:id (the value mkTree routesUsers computes, as the claim theorem records). -/
def usersTree : Heap :=
  [ { path := [47,117,115,101,114,115,47], indices := [], wildChild := true, nType := nodeType.root, priority := 1, children := [1], handlers := none, fullPath := [47] },
    { path := [58,105,100], indices := [], wildChild := false, nType := nodeType.param, priority := 1, children := [], handlers := some [1], fullPath := [47,117,115,101,114,115,47,58,105,100] } ]

/-- The parameter route together with its trailing-slash variant. -/
def routesUsersSlash : List (String × HandlersChain) := [ ("/users/:id", [1]), ("/users/:id/", [2]) ]

/-- The heap holding /users/:id and /users/:id/ (the value mkTree routesUsersSlash computes, as the claim theorem records). -/
def usersSlashTree : Heap :=
  [ { path := [47,117,115,101,114,115,47], indices := [], wildChild := true, nType := nodeType.root, priority := 2, children := [1], handlers := none, fullPath := [47] },
    { path := [58,105,100], indices := [47], wildChild := false, nType := nodeType.param, priority := 2, children := [2], handlers := some [1], fullPath := [47,117,115,101,114,115,47,58,105,100] },
    { path := [47], indices := [], wildChild := false, nType := nodeType.static, priority := 1, children := [], handlers := some [2], fullPath := [47,117,115,101,114,115,47,58,105,100,47] } ]

/-- The catch-all route of the spec's capture example. -/
def routesFiles : List (String × HandlersChain) := [ ("/files/*path", [1]) ]

/-- The heap holding /files/*path (the value mkTree routesFiles computes, as the claim theorem records). -/
def filesTree : Heap :=
  [ { path := [47,102,105,108,101,115], indices := [47], wildChild := false, nType := nodeType.root, priority := 1, children := [1], handlers := none, fullPath := [47] },
    { path := [], indices := [], wildChild := true, nType := nodeType.catchAll, priority := 1, children := [2], handlers := none, fullPath := [47,102,105,108,101,115,47,42,112,97,116,104] },
    { path := [47,42,112,97,116,104], indices := [], wildChild := false, nType := nodeType.catchAll, priority := 1, children := [], handlers := some [1], fullPath := [47,102,105,108,101,115,47,42,112,97,116,104] } ]

/-- The single parameter route of the conflict example. -/
def routesAX : List (String × HandlersChain) := [ ("/a/:x", [1]) ]

/-- The heap holding /a/:x (the value mkTree routesAX computes, as the claim theorem records). -/
def treeAX : Heap :=
  [ { path := [47,97,47], indices := [], wildChild := true, nType := nodeType.root, priority := 1, children := [1], handlers := none, fullPath := [47] },
    { path := [58,120], indices := [], wildChild := false, nType := nodeType.param, priority := 1, children := [], handlers := some [1], fullPath := [47,97,47,58,120] } ]

/-- The mixed-case route of the case-insensitive example. -/
def routesFoo : List (String × HandlersChain) := [ ("/Foo/Bar", [1]) ]

/-- The heap holding /Foo/Bar (the value mkTree routesFoo computes, as the claim theorem records). -/
def fooTree : Heap :=
  [ { path := [47,70,111,111,47,66,97,114], indices := [], wildChild := false, nType := nodeType.root, priority := 1, children := [], handlers := some [1], fullPath := [47,70,111,111,47,66,97,114] } ]

/-- C1 (code bug): the claim asks that a wildcard-free registered path is
always found again by getValue with its exact handler chain.  With the
skippedNodes slice that every call site in engine.go actually supplies (a
nil slice, capacity zero), looking up the registered static path /a/b in a
tree that also holds /a/:x aborts with the Go runtime panic of the full
slice expression in the push at tree.go lines 480-481, because the lookup
must record a backtracking frame at the branch node.  With any capacity of
at least one the same lookup returns the registered chain with zero
parameters, which is the claimed round trip: the claim states the intent
and the missing preallocation (present upstream in gin, removed here) is
the slip. -/
theorem c1_roundtrip_panics_on_engine_stack :
    mkTree routesC1 = Except.ok treeC1 ∧
    (getValue treeC1 0 (bytes "/a/b") (some []) [] 0 true).1 =
      Except.error "runtime error: slice bounds out of range" ∧
    (getValue treeC1 0 (bytes "/a/b") (some []) [] 1 true).1 =
      Except.ok { handlers := some [1], params := some [], paramsSet := false, tsr := false, fullPath := bytes "/a/b", skipped := [ { path := bytes "/a/b", nd := hget treeC1 0, paramsCount := 0 } ] } :=
  ⟨rfl, rfl, rfl⟩

/-- C2 (code bug): with /users/:id and /users/new registered, the claim asks
getValue on /users/new for the static chain.  The lookup reaches the branch
node whose index matches the byte n while the node also has a wildcard
child, so it pushes a backtracking frame; with the zero-capacity
skippedNodes slice passed by every call site in engine.go this is the Go
slice-bounds panic, not the claimed static match.  With capacity at least
one the static chain is returned with no parameter extracted, confirming
that static-over-wildcard precedence is the intent of the code. -/
theorem c2_static_precedence_panics_on_engine_stack :
    mkTree routesC2 = Except.ok treeC2 ∧
    (getValue treeC2 0 (bytes "/users/new") (some []) [] 0 true).1 =
      Except.error "runtime error: slice bounds out of range" ∧
    (getValue treeC2 0 (bytes "/users/new") (some []) [] 1 true).1 =
      Except.ok { handlers := some [2], params := some [], paramsSet := false, tsr := false, fullPath := bytes "/users/new", skipped := [ { path := bytes "/users/new", nd := hget treeC2 0, paramsCount := 0 } ] } :=
  ⟨rfl, rfl, rfl⟩

/-- C4 counterexample: with only /users/:id registered, getValue on
/users/42/ returns no handlers but sets the trailing-slash hint to true
(tree.go line 576: the parameter node has no children and exactly one byte,
a slash, remains), whereas the claim requires tsr to be false in this
situation ("plain not-found otherwise"). -/
theorem c4_tsr_counterexample :
    mkTree routesUsers = Except.ok usersTree ∧
    (getValue usersTree 0 (bytes "/users/42/") (some []) [] 0 true).1 =
      Except.ok { handlers := none, params := some [Param.mk (bytes "id") (bytes "42")], paramsSet := true, tsr := true, fullPath := [], skipped := [] } :=
  ⟨rfl, rfl⟩

/-- C4 as amended: /users/42 extracts the single parameter id=42; the extra
trailing slash never yields the /users/:id chain: when /users/:id/ is also
registered the lookup returns that route's chain (still extracting id=42),
and when it is not registered the lookup returns no chain with the
trailing-slash hint set (removing the slash would match), not a plain
not-found. -/
theorem c4_param_extraction_amended :
    (getValue usersTree 0 (bytes "/users/42") (some []) [] 0 true).1 =
      Except.ok { handlers := some [1], params := some [Param.mk (bytes "id") (bytes "42")], paramsSet := true, tsr := false, fullPath := bytes "/users/:id", skipped := [] } ∧
    (getValue usersTree 0 (bytes "/users/42/") (some []) [] 0 true).1 =
      Except.ok { handlers := none, params := some [Param.mk (bytes "id") (bytes "42")], paramsSet := true, tsr := true, fullPath := [], skipped := [] } ∧
    mkTree routesUsersSlash = Except.ok usersSlashTree ∧
    (getValue usersSlashTree 0 (bytes "/users/42/") (some []) [] 0 true).1 =
      Except.ok { handlers := some [2], params := some [Param.mk (bytes "id") (bytes "42")], paramsSet := true, tsr := false, fullPath := bytes "/users/:id/", skipped := [] } :=
  ⟨rfl, rfl, rfl, rfl⟩

/-- C5: with /files/*path registered, getValue on /files/a/b/c returns that
route's chain and exactly one parameter whose key is path and whose value
includes the leading slash: /a/b/c (tree.go lines 591-621; the catch-all
value is the whole remaining path after the prefix /files). -/
theorem c5_catchall_capture :
    mkTree routesFiles = Except.ok filesTree ∧
    (getValue filesTree 0 (bytes "/files/a/b/c") (some []) [] 0 true).1 =
      Except.ok { handlers := some [1], params := some [Param.mk (bytes "path") (bytes "/a/b/c")], paramsSet := true, tsr := false, fullPath := bytes "/files/*path", skipped := [] } :=
  ⟨rfl, rfl⟩

/-- C6 counterexample: with only /users/:id registered, looking up /users/42
descends at the root node, which has a wildcard child, and no static child
matches the next byte, so the search takes the wildcard branch — exactly
the situation in which the claim requires a frame to be pushed before the
wildcard branch is taken.  The run is executed with a skippedNodes slice of
capacity zero, on which any push aborts with a slice-bounds error; it
nevertheless succeeds and ends with an empty stack, so no push happened. -/
theorem c6_push_rule_counterexample :
    mkTree routesUsers = Except.ok usersTree ∧
    (getValue usersTree 0 (bytes "/users/42") (some []) [] 0 true).1 =
      Except.ok { handlers := some [1], params := some [Param.mk (bytes "id") (bytes "42")], paramsSet := true, tsr := false, fullPath := bytes "/users/:id", skipped := [] } :=
  ⟨rfl, rfl⟩

/-- C6 as amended: a frame (the concatenated remaining path, a copy of the
current node, the current parameter count) is pushed exactly when the
search is about to descend into a static child matched through the index
bytes at a node that also has a wildcard child, so that the skipped
wildcard alternative can be retried on backtracking; no frame is pushed
when the wildcard branch itself is taken.  Wildcard-only descent succeeds
with capacity zero and an empty final stack, while the static descent at a
wildcard-bearing node pushes: with capacity zero it aborts with the
slice-bounds panic, with capacity one it records exactly the frame
(path /users/new, copy of the branch node, parameter count zero). -/
theorem c6_push_rule_amended :
    (getValue usersTree 0 (bytes "/users/42") (some []) [] 0 true).1 =
      Except.ok { handlers := some [1], params := some [Param.mk (bytes "id") (bytes "42")], paramsSet := true, tsr := false, fullPath := bytes "/users/:id", skipped := [] } ∧
    (getValue treeC2 0 (bytes "/users/new") (some []) [] 0 false).1 =
      Except.error "runtime error: slice bounds out of range" ∧
    (getValue treeC2 0 (bytes "/users/new") (some []) [] 1 false).1 =
      Except.ok { handlers := some [2], params := some [], paramsSet := false, tsr := false, fullPath := bytes "/users/new", skipped := [ { path := bytes "/users/new", nd := hget treeC2 0, paramsCount := 0 } ] } :=
  ⟨rfl, rfl, rfl⟩

/-- C7: registration fails fast, never silently recovered: the engine
rejects an empty path and an empty handler chain (engine.go lines 379-384),
node.addRoute rejects registering the same path twice (tree.go line 288),
and insertChild rejects a catch-all wildcard that is not the final segment
of the path (tree.go lines 390-392). -/
theorem c7_registration_failfast :
    engineAddRoute newRootHeap (bytes "") [1] = Except.error "absolute path must not be empty" ∧
    engineAddRoute newRootHeap (bytes "/x") [] = Except.error "handlers must not be empty" ∧
    mkTree [ ("/x", [1]), ("/x", [2]) ] = Except.error "handlers are already registered for path" ∧
    mkTree [ ("/files/*path/more", [1]) ] = Except.error "catch-all routes are only allowed at the end of the path" :=
  ⟨rfl, rfl, rfl, rfl⟩

/-- C8: with /Foo/Bar registered, the exact lookup of /foo/bar finds
nothing, and findCaseInsensitivePath on /foo/bar returns the canonically
cased bytes /Foo/Bar with found true (for either value of
fixTrailingSlash). -/
theorem c8_case_insensitive_redirect :
    mkTree routesFoo = Except.ok fooTree ∧
    (getValue fooTree 0 (bytes "/foo/bar") (some []) [] 0 true).1 =
      Except.ok { handlers := none, params := some [], paramsSet := false, tsr := false, fullPath := [], skipped := [] } ∧
    findCaseInsensitivePath fooTree 0 (bytes "/foo/bar") true = Except.ok (bytes "/Foo/Bar", true) ∧
    findCaseInsensitivePath fooTree 0 (bytes "/foo/bar") false = Except.ok (bytes "/Foo/Bar", true) :=
  ⟨rfl, rfl, rfl, rfl⟩

set_option maxHeartbeats 2000000 in
/-- Every step of the getValue walk leaves the heap untouched: the loop
only reads nodes (descending, copying a frame, restoring a frame) and
writes only the caller's params and skippedNodes slices, which are threaded
separately. -/
theorem getValueF_heap_eq (fuel : Nat) :
    ∀ (h : Heap) (n : node) (path : Str) (params : Option Params)
      (skipped : List skippedNode) (skCap : Nat) (unescape : Bool) (gpc : Nat) (vpSet : Bool),
      (getValueF fuel h n path params skipped skCap unescape gpc vpSet).2 = h := by
  induction fuel with
  | zero =>
      intro h n path params skipped skCap unescape gpc vpSet
      rfl
  | succ fuel ih =>
      intro h n path params skipped skCap unescape gpc vpSet
      unfold getValueF
      dsimp only
      repeat' split
      all_goals first | rfl | apply ih

/-- C9: lookups are read-only.  For every heap (that is, every built tree),
every start node, every input path and every caller-supplied state, getValue
returns the heap it was given: no field of any node in the tree is written;
the only state that changes is the caller-supplied params slice and
skippedNodes slice threaded through the walk (and returned in getOut). -/
theorem c9_lookup_readonly :
    (∀ (fuel : Nat) (h : Heap) (n : node) (path : Str) (params : Option Params)
        (skipped : List skippedNode) (skCap : Nat) (unescape : Bool) (gpc : Nat) (vpSet : Bool),
        (getValueF fuel h n path params skipped skCap unescape gpc vpSet).2 = h) ∧
    (∀ (h : Heap) (a : Nat) (path : Str) (params : Option Params)
        (skipped : List skippedNode) (skCap : Nat) (unescape : Bool),
        (getValue h a path params skipped skCap unescape).2 = h) := by
  refine ⟨fun fuel => getValueF_heap_eq fuel, ?_⟩
  intro h a path params skipped skCap unescape
  exact getValueF_heap_eq _ h _ path params skipped skCap unescape 0 false

/-- The heap of treeAX right after addRoute has bumped the root priority
(the state in which the walk loop of a second registration starts). -/
def treeAXBumped : Heap :=
  [ { path := [47,97,47], indices := [], wildChild := true, nType := nodeType.root, priority := 2, children := [1], handlers := none, fullPath := [47] },
    { path := [58,120], indices := [], wildChild := false, nType := nodeType.param, priority := 1, children := [], handlers := some [1], fullPath := [47,97,47,58,120] } ]

set_option maxHeartbeats 1000000 in
/-- C3: wildcard conflicts are rejected at registration time.  With /a/:x
registered, adding /a/:w for ANY parameter name w other than x (w non-empty
and without a slash, so that it is a name at the same position rather than
the same route or a sub-route of :x) panics with the wildcard-conflict
error of tree.go lines 269-279, and adding /a/*w panics for every w (a
catch-all can never share the position of :x, so the kind mismatch always
conflicts).  Neither is ever silently tolerated: addRoute returns the
conflict error and no route is added. -/
theorem c3_wildcard_conflict_rejected :
    mkTree routesAX = Except.ok treeAX ∧
    (∀ w : Str, w ≠ [] → w ≠ bytes "x" → (47:Nat) ∉ w →
        isError (addRoute treeAX 0 (bytes "/a/:" ++ w) [9]) = true) ∧
    (∀ w : Str, isError (addRoute treeAX 0 (bytes "/a/*" ++ w) [9]) = true) := by
  refine ⟨rfl, ?_, ?_⟩
  · intro w h1 h2 h3
    cases w with
    | nil => exact absurd rfl h1
    | cons a t =>
      have e1 : bytes "/a/:" ++ a :: t = 47 :: 97 :: 47 :: 58 :: a :: t := rfl
      rw [e1]
      show isError (addRouteF (2 * (47 :: 97 :: 47 :: 58 :: a :: t : Str).length + treeAXBumped.length + 8) treeAXBumped 0
          (47 :: 97 :: 47 :: 58 :: a :: t) (47 :: 97 :: 47 :: 58 :: a :: t) 0 [9]) = true
      rw [show (2 * (47 :: 97 :: 47 :: 58 :: a :: t : Str).length + treeAXBumped.length + 8) = Nat.succ (2 * t.length + 19) from rfl]
      rw [addRouteF.eq_2]
      rw [show hget treeAXBumped 0 = { path := [47,97,47], indices := [], wildChild := true, nType := nodeType.root, priority := 2, children := [1], handlers := none, fullPath := [47] } from rfl]
      rw [show longestCommonPref (47 :: 97 :: 47 :: 58 :: a :: t) ([47,97,47] : Str) = 3 from rfl]
      simp only [if_neg (show ¬ 3 < ([47,97,47] : Str).length from by decide)]
      rw [if_pos (show 3 < (47 :: 97 :: 47 :: 58 :: a :: t : Str).length from by simp)]
      rw [show List.drop 3 (47 :: 97 :: 47 :: 58 :: a :: t) = 58 :: a :: t from rfl]
      dsimp only [List.headD]
      rw [if_neg (show ¬ (nodeType.root = nodeType.param ∧ (58:Nat) = slashByte ∧ ([1] : List Nat).length = 1) from by decide)]
      rw [show findIdx [] 58 = none from rfl]
      rw [if_neg (show ¬ ((58:Nat) ≠ colonByte ∧ (58:Nat) ≠ starByte ∧ nodeType.root ≠ nodeType.catchAll) from by decide)]
      rw [if_pos (show True from trivial)]
      simp only [show hget treeAXBumped (([1] : List Nat).getD (([1] : List Nat).length - 1) 0) =
          { path := [58,120], indices := [], wildChild := false, nType := nodeType.param, priority := 1, children := [], handlers := some [1], fullPath := [47,97,47,58,120] } from rfl]
      rw [if_neg]
      · rfl
      · rintro ⟨hA, hB, hC, hD⟩
        rw [show List.take ([58,120] : Str).length (58 :: a :: t) = [58, a] from rfl] at hB
        have ha : a = 120 := by simpa using hB
        subst ha
        cases t with
        | nil => exact h2 rfl
        | cons c tl =>
            rcases hD with hD | hD
            · simp only [List.length_cons, List.length_nil] at hD
              omega
            · rw [show (58 :: 120 :: c :: tl : Str).getD ([58,120] : Str).length 0 = c from rfl] at hD
              rw [show slashByte = 47 from rfl] at hD
              subst hD
              simp at h3
  · intro w
    cases w with
    | nil => rfl
    | cons b u =>
      have e1 : bytes "/a/*" ++ b :: u = 47 :: 97 :: 47 :: 42 :: b :: u := rfl
      rw [e1]
      show isError (addRouteF (2 * (47 :: 97 :: 47 :: 42 :: b :: u : Str).length + treeAXBumped.length + 8) treeAXBumped 0
          (47 :: 97 :: 47 :: 42 :: b :: u) (47 :: 97 :: 47 :: 42 :: b :: u) 0 [9]) = true
      rw [show (2 * (47 :: 97 :: 47 :: 42 :: b :: u : Str).length + treeAXBumped.length + 8) = Nat.succ (2 * u.length + 19) from rfl]
      rw [addRouteF.eq_2]
      rw [show hget treeAXBumped 0 = { path := [47,97,47], indices := [], wildChild := true, nType := nodeType.root, priority := 2, children := [1], handlers := none, fullPath := [47] } from rfl]
      rw [show longestCommonPref (47 :: 97 :: 47 :: 42 :: b :: u) ([47,97,47] : Str) = 3 from rfl]
      simp only [if_neg (show ¬ 3 < ([47,97,47] : Str).length from by decide)]
      rw [if_pos (show 3 < (47 :: 97 :: 47 :: 42 :: b :: u : Str).length from by simp)]
      rw [show List.drop 3 (47 :: 97 :: 47 :: 42 :: b :: u) = 42 :: b :: u from rfl]
      dsimp only [List.headD]
      rw [if_neg (show ¬ (nodeType.root = nodeType.param ∧ (42:Nat) = slashByte ∧ ([1] : List Nat).length = 1) from by decide)]
      rw [show findIdx [] 42 = none from rfl]
      rw [if_neg (show ¬ ((42:Nat) ≠ colonByte ∧ (42:Nat) ≠ starByte ∧ nodeType.root ≠ nodeType.catchAll) from by decide)]
      rw [if_pos (show True from trivial)]
      simp only [show hget treeAXBumped (([1] : List Nat).getD (([1] : List Nat).length - 1) 0) =
          { path := [58,120], indices := [], wildChild := false, nType := nodeType.param, priority := 1, children := [], handlers := some [1], fullPath := [47,97,47,58,120] } from rfl]
      rw [if_neg]
      · rfl
      · rintro ⟨hA, hB, hC, hD⟩
        rw [show List.take ([58,120] : Str).length (42 :: b :: u) = [42, b] from rfl] at hB
        simp at hB

/-- Witness for C3: the concrete conflict of the claim, registering /a/:y
(name y, which is non-empty, differs from x, and contains no slash) after
/a/:x. -/
theorem c3_wildcard_conflict_witness :
    (((bytes "y" : Str) ≠ []) ∧ ((bytes "y" : Str) ≠ bytes "x") ∧ ((47:Nat) ∉ (bytes "y" : Str))) ∧
    isError (addRoute treeAX 0 (bytes "/a/:" ++ bytes "y") [9]) = true :=
  ⟨by refine ⟨by decide, by decide, by decide⟩,
   c3_wildcard_conflict_rejected.2.1 (bytes "y") (by decide) (by decide) (by decide)⟩

/-- When the parameter value contains no slash, the parameter-end scan of
getValue consumes the whole remaining path. -/
theorem seekSlash_no_slash : ∀ (v : Str), (47:Nat) ∉ v → seekSlash v = v.length
  | [], _ => rfl
  | c :: r, hv => by
      have hc : ¬ c = 47 := fun h => hv (by simp [h])
      simp only [seekSlash, List.length_cons]
      rw [if_neg (fun h => hc (by simpa [slashByte] using h))]
      rw [seekSlash_no_slash r (fun h => hv (List.mem_cons_of_mem _ h))]

set_option maxHeartbeats 1000000 in
/-- C10: a failing percent-decode is swallowed.  With /users/:id registered
and unescape set, for EVERY captured value v on which the model of
url.QueryUnescape fails (v non-empty and slash-free so that v is the whole
captured segment), getValue on /users/ followed by v still returns the
matched chain and stores the raw undecoded bytes v as the parameter value;
no error reaches the caller.  The same happens on a catch-all value:
looking up /files/%zz against /files/*path (where the decode of /%zz fails)
returns the chain with the raw value /%zz. -/
theorem c10_unescape_failure_swallowed :
    (∀ v : Str, v ≠ [] → (47:Nat) ∉ v → queryUnescape v = Except.error () →
        (getValue usersTree 0 (bytes "/users/" ++ v) (some []) [] 0 true).1 =
          Except.ok { handlers := some [1], params := some [Param.mk (bytes "id") v], paramsSet := true, tsr := false, fullPath := bytes "/users/:id", skipped := [] }) ∧
    (getValue filesTree 0 (bytes "/files/%zz") (some []) [] 0 true).1 =
      Except.ok { handlers := some [1], params := some [Param.mk (bytes "path") (bytes "/%zz")], paramsSet := true, tsr := false, fullPath := bytes "/files/*path", skipped := [] } := by
  refine ⟨?_, rfl⟩
  intro v h1 h3 hq
  cases v with
  | nil => exact absurd rfl h1
  | cons a t =>
    have e1 : bytes "/users/" ++ a :: t = 47 :: 117 :: 115 :: 101 :: 114 :: 115 :: 47 :: a :: t := rfl
    rw [e1]
    show (getValueF (4 * (47 :: 117 :: 115 :: 101 :: 114 :: 115 :: 47 :: a :: t : Str).length + 4 * usersTree.length + 8) usersTree (hget usersTree 0)
        (47 :: 117 :: 115 :: 101 :: 114 :: 115 :: 47 :: a :: t) (some []) [] 0 true 0 false).1 =
        Except.ok { handlers := some [1], params := some [Param.mk (bytes "id") (a :: t)], paramsSet := true, tsr := false, fullPath := bytes "/users/:id", skipped := [] }
    rw [show (4 * (47 :: 117 :: 115 :: 101 :: 114 :: 115 :: 47 :: a :: t : Str).length + 4 * usersTree.length + 8) = Nat.succ (4 * t.length + 47) from rfl]
    rw [getValueF.eq_2]
    simp only [show hget usersTree 0 = { path := [47,117,115,101,114,115,47], indices := [], wildChild := true, nType := nodeType.root, priority := 1, children := [1], handlers := none, fullPath := [47] } from rfl]
    rw [if_pos (show (47 :: 117 :: 115 :: 101 :: 114 :: 115 :: 47 :: a :: t : Str).length > ([47,117,115,101,114,115,47] : Str).length ∧ List.take ([47,117,115,101,114,115,47] : Str).length (47 :: 117 :: 115 :: 101 :: 114 :: 115 :: 47 :: a :: t) = [47,117,115,101,114,115,47] from ⟨by simp, rfl⟩)]
    rw [show List.drop ([47,117,115,101,114,115,47] : Str).length (47 :: 117 :: 115 :: 101 :: 114 :: 115 :: 47 :: a :: t) = a :: t from rfl]
    dsimp only [List.headD]
    rw [show findIdx [] a = none from rfl]
    dsimp only
    rw [seekSlash_no_slash (a :: t) h3]
    rw [if_neg (Nat.lt_irrefl (a :: t).length)]
    simp only [show hget usersTree (([1] : List Nat).getD (([1] : List Nat).length - 1) 0) = { path := [58,105,100], indices := [], wildChild := false, nType := nodeType.param, priority := 1, children := [], handlers := some [1], fullPath := [47,117,115,101,114,115,47,58,105,100] } from rfl]
    rw [if_neg (show ¬ ¬ True from by decide)]
    rw [if_pos (show (some [1] : Option HandlersChain) ≠ none from by decide)]
    rw [List.take_length]
    simp only [unescapeVal, hq]
    rfl

/-- Witness for C10: the raw value %zz (non-empty, slash-free, and rejected
by QueryUnescape) is kept verbatim while the /users/:id chain is returned. -/
theorem c10_unescape_witness :
    (((bytes "%zz" : Str) ≠ []) ∧ ((47:Nat) ∉ (bytes "%zz" : Str)) ∧ queryUnescape (bytes "%zz") = Except.error ()) ∧
    (getValue usersTree 0 (bytes "/users/" ++ bytes "%zz") (some []) [] 0 true).1 =
      Except.ok { handlers := some [1], params := some [Param.mk (bytes "id") (bytes "%zz")], paramsSet := true, tsr := false, fullPath := bytes "/users/:id", skipped := [] } :=
  ⟨⟨by decide, by decide, rfl⟩,
   c10_unescape_failure_swallowed.1 (bytes "%zz") (by decide) (by decide) rfl⟩
